import Mathlib

/-!
Verification of the portfolio-report metrics engine.

The source consists of two files: app.py, whose function
process_portfolio_data validates the uploaded raw table, fills the
optional Sector and Market Cap columns, coerces the numeric columns and
appends the derived columns (Investment, Current Value, Gain/Loss,
Gain/Loss %, Weight %); and whose function prepare_pdf_data aggregates
the enriched table into the summary record consumed by the document
renderer (distributions, top-N rankings, concentration risk, top
sector); and pdf_creator.py, whose risk-assessment table classifies the
concentration and top-sector percentages into Low / Moderate / High.

Numbers are modelled by ℚ.  A numeric cell that is absent or non-numeric
is an Option ℚ that is none (the source coerces it to 0 via fillna /
to_numeric(errors=coerce)); a missing optional text cell is an
Option String that is none.  A division whose divisor may be zero and
which the source leaves unguarded (the Weight % column, hence also the
concentration risk) is modelled with Option ℚ: none exactly when the
divisor is zero, so that the absence of a fallback in the source is
visible in the model.
-/

/-- One row of the uploaded raw table.  none in a numeric field models a
missing or non-numeric cell; none in a text field models a missing cell. -/
structure RawRow where
  stockName : String
  quantity : Option ℚ
  buyPrice : Option ℚ
  currentPrice : Option ℚ
  sector : Option String
  marketCap : Option String

/-- The uploaded raw table: which columns are present, and the rows. -/
structure RawTable where
  hasStockName : Bool
  hasQuantity : Bool
  hasBuyPrice : Bool
  hasCurrentPrice : Bool
  hasSector : Bool
  hasMarketCap : Bool
  rows : List RawRow

/-- One row of the cleaned table: numeric cells coerced, optional text
columns filled with their defaults. -/
structure CleanRow where
  stockName : String
  quantity : ℚ
  buyPrice : ℚ
  currentPrice : ℚ
  sector : String
  marketCap : String
deriving DecidableEq, Repr

/-- The first required column absent from the table, in the order the
source's validation loop checks them, if any. -/
def missingRequired (t : RawTable) : Option String :=
  if !t.hasStockName then some "Stock Name"
  else if !t.hasQuantity then some "Quantity"
  else if !t.hasBuyPrice then some "Buy Price"
  else if !t.hasCurrentPrice then some "Current Price"
  else none

/-- Cleaning of one row: numeric cells default to 0; the Sector and
Market Cap cells default to their documented labels, and when the whole
column is absent every row gets the default. -/
def cleanRow (hasSector hasMarketCap : Bool) (r : RawRow) : CleanRow :=
  { stockName := r.stockName
    quantity := r.quantity.getD 0
    buyPrice := r.buyPrice.getD 0
    currentPrice := r.currentPrice.getD 0
    sector := if hasSector then r.sector.getD "Uncategorized" else "Uncategorized"
    marketCap := if hasMarketCap then r.marketCap.getD "Not Specified" else "Not Specified" }

/-- The derive step (process_portfolio_data in app.py): fails on the
first missing required column, otherwise cleans every row.  The derived
columns are the functions below, computed from the cleaned rows. -/
def process_portfolio_data (t : RawTable) : Except String (List CleanRow) :=
  match missingRequired t with
  | some c => .error ("Missing required column: " ++ c)
  | none => .ok (t.rows.map (cleanRow t.hasSector t.hasMarketCap))

/-- Derived column Investment = Quantity * Buy Price. -/
def investment (r : CleanRow) : ℚ := r.quantity * r.buyPrice

/-- Derived column Current Value = Quantity * Current Price. -/
def currentValue (r : CleanRow) : ℚ := r.quantity * r.currentPrice

/-- Derived column Gain/Loss = Current Value - Investment. -/
def gainLoss (r : CleanRow) : ℚ := currentValue r - investment r

/-- Derived column Gain/Loss %: the divisor Investment is replaced by 1
when it is 0 (the source's replace(0, 1)). -/
def gainLossPct (r : CleanRow) : ℚ :=
  gainLoss r / (if investment r = 0 then 1 else investment r) * 100

/-- Total current value of the table. -/
def totalCurrentValue (rows : List CleanRow) : ℚ :=
  (rows.map currentValue).sum

/-- Derived column Weight % = Current Value / total current value * 100.
The source divides by the total unguarded; the model returns none
exactly when the total is zero. -/
def weightPct (rows : List CleanRow) (r : CleanRow) : Option ℚ :=
  if totalCurrentValue rows = 0 then none
  else some (currentValue r / totalCurrentValue rows * 100)

/-- Addition of two possibly-undefined quantities: none as soon as one
side is none. -/
def addOption : Option ℚ → Option ℚ → Option ℚ
  | some v, some s => some (v + s)
  | _, _ => none

/-- Strict sum of a column of possibly-undefined entries: none as soon
as one entry is none.  On a column of defined entries this agrees with
the pandas sum; the pandas default for undefined entries is the
skipping sum sumSkipNA below. -/
def sumOptions : List (Option ℚ) → Option ℚ
  | [] => some 0
  | o :: rest => addOption o (sumOptions rest)

/-- Sum of the Weight % column over the whole table. -/
def weightSum (rows : List CleanRow) : Option ℚ :=
  sumOptions (rows.map (weightPct rows))

/-- Distinct labels of a column, first occurrence first. -/
def firstUniques : List String → List String
  | [] => []
  | s :: rest => s :: (firstUniques rest).filter (fun x => !(x == s))

/-- Groupby-sum: for each distinct label, the sum of Current Value over
the rows carrying the label. -/
def groupSum (labelOf : CleanRow → String) (rows : List CleanRow) : List (String × ℚ) :=
  (firstUniques (rows.map labelOf)).map
    (fun s => (s, ((rows.filter (fun r => labelOf r == s)).map currentValue).sum))

/-- Sector distribution of the enriched table. -/
def sectorDistribution (rows : List CleanRow) : List (String × ℚ) :=
  groupSum CleanRow.sector rows

/-- Market-cap distribution of the enriched table. -/
def marketCapDistribution (rows : List CleanRow) : List (String × ℚ) :=
  groupSum CleanRow.marketCap rows

/-- First pair attaining the maximal value, none on the empty list
(pandas idxmax raises on an empty series). -/
def idxmaxQ : List (String × ℚ) → Option (String × ℚ)
  | [] => none
  | p :: rest =>
    match idxmaxQ rest with
    | none => some p
    | some q => if p.2 < q.2 then some q else some p

/-- Insertion of an element in front of the first list element it
relates to under le. -/
def insertLe (le : CleanRow → CleanRow → Bool) (x : CleanRow) : List CleanRow → List CleanRow
  | [] => [x]
  | y :: ys => if le x y then x :: y :: ys else y :: insertLe le x ys

/-- Insertion sort by the Boolean relation le. -/
def sortLe (le : CleanRow → CleanRow → Bool) : List CleanRow → List CleanRow
  | [] => []
  | x :: xs => insertLe le x (sortLe le xs)

/-- Comparison putting larger keys first. -/
def descBle (key : CleanRow → ℚ) (a b : CleanRow) : Bool := decide (key b ≤ key a)

/-- Comparison putting smaller keys first. -/
def ascBle (key : CleanRow → ℚ) (a b : CleanRow) : Bool := decide (key a ≤ key b)

/-- The k rows with the largest key (pandas nlargest). -/
def nlargestBy (k : Nat) (key : CleanRow → ℚ) (l : List CleanRow) : List CleanRow :=
  (sortLe (descBle key) l).take k

/-- The k rows with the smallest key (pandas nsmallest). -/
def nsmallestBy (k : Nat) (key : CleanRow → ℚ) (l : List CleanRow) : List CleanRow :=
  (sortLe (ascBle key) l).take k

/-- Top 10 holdings by current value. -/
def topHoldings (rows : List CleanRow) : List CleanRow :=
  nlargestBy 10 currentValue rows

/-- Top 3 gainers by Gain/Loss % (the document projection's count). -/
def topGainers (rows : List CleanRow) : List CleanRow :=
  nlargestBy 3 gainLossPct rows

/-- Top 3 losers by Gain/Loss % (the document projection's count). -/
def topLosers (rows : List CleanRow) : List CleanRow :=
  nsmallestBy 3 gainLossPct rows

/-- Concentration risk, strict variant: sum of the Weight % column over
the top 5 holdings by current value, undefined as soon as a summed
weight is.  It agrees with the source whenever every weight is defined,
in particular whenever the total current value is nonzero. -/
def concentrationRisk (rows : List CleanRow) : Option ℚ :=
  sumOptions ((nlargestBy 5 currentValue rows).map (weightPct rows))

/-- The summary record handed to the document renderer. -/
structure PdfData where
  total_investment : ℚ
  total_value : ℚ
  total_gain_loss : ℚ
  overall_return : ℚ
  num_holdings : Nat
  sectors : List String
  sector_distribution : List (String × ℚ)
  market_cap_distribution : List (String × ℚ)
  top_holdings : List CleanRow
  top_gainers : List CleanRow
  top_losers : List CleanRow
  concentration_risk : Option ℚ
  top_sector : String
  top_sector_pct : Option ℚ

/-- The summarize step (prepare_pdf_data in app.py).  It fails exactly
where the source raises: taking idxmax of the sector distribution of an
empty table.  The top-sector percentage divides by the caller-supplied
total value, undefined when that total is zero. -/
def prepare_pdf_data (rows : List CleanRow)
    (total_investment total_value total_gain_loss overall_return : ℚ) :
    Except String PdfData :=
  match idxmaxQ (sectorDistribution rows) with
  | none => .error "attempt to get argmax of an empty sequence"
  | some p =>
    .ok
      { total_investment := total_investment
        total_value := total_value
        total_gain_loss := total_gain_loss
        overall_return := overall_return
        num_holdings := rows.length
        sectors := (sectorDistribution rows).map Prod.fst
        sector_distribution := sectorDistribution rows
        market_cap_distribution := marketCapDistribution rows
        top_holdings := topHoldings rows
        top_gainers := topGainers rows
        top_losers := topLosers rows
        concentration_risk := concentrationRisk rows
        top_sector := p.1
        top_sector_pct :=
          if total_value = 0 then none else some (p.2 / total_value * 100) }

/-- Risk assessment of the concentration figure in pdf_creator.py. -/
def concentrationAssessment (c : ℚ) : String :=
  if c > 50 then "High" else if c > 40 then "Moderate" else "Low"

/-- Risk assessment of the top-sector percentage in pdf_creator.py. -/
def sectorAssessment (p : ℚ) : String :=
  if p > 40 then "High" else if p > 30 then "Moderate" else "Low"

/-! Helper lemmas about the sorting and summing combinators. -/

/-- Insertion produces a permutation of consing. -/
lemma insertLe_perm (le : CleanRow → CleanRow → Bool) (x : CleanRow) :
    ∀ l : List CleanRow, (insertLe le x l).Perm (x :: l) := by
  intro l
  induction l with
  | nil => simp [insertLe]
  | cons y ys ih =>
    by_cases h : le x y
    · simp [insertLe, h]
    · simp only [insertLe, h, if_neg, Bool.false_eq_true, if_false]
      exact (ih.cons y).trans (List.Perm.swap x y ys)

/-- Insertion sort produces a permutation of the input. -/
lemma sortLe_perm (le : CleanRow → CleanRow → Bool) :
    ∀ l : List CleanRow, (sortLe le l).Perm l := by
  intro l
  induction l with
  | nil => simp [sortLe]
  | cons x xs ih => exact (insertLe_perm le x (sortLe le xs)).trans (ih.cons x)

/-- Insertion preserves sortedness when le is total and transitive. -/
lemma insertLe_pairwise (le : CleanRow → CleanRow → Bool)
    (htotal : ∀ a b, le a b = false → le b a = true)
    (htrans : ∀ a b c, le a b = true → le b c = true → le a c = true)
    (x : CleanRow) :
    ∀ l : List CleanRow, l.Pairwise (fun a b => le a b = true) →
      (insertLe le x l).Pairwise (fun a b => le a b = true) := by
  intro l
  induction l with
  | nil => intro _; simp [insertLe]
  | cons y ys ih =>
    intro hp
    rw [List.pairwise_cons] at hp
    obtain ⟨hy, hys⟩ := hp
    by_cases h : le x y
    · simp only [insertLe, h, if_true]
      rw [List.pairwise_cons]
      refine ⟨?_, List.pairwise_cons.mpr ⟨hy, hys⟩⟩
      intro z hz
      rcases List.mem_cons.mp hz with rfl | hz
      · exact h
      · exact htrans x y z h (hy z hz)
    · simp only [insertLe, h, Bool.false_eq_true, if_false]
      rw [List.pairwise_cons]
      refine ⟨?_, ih hys⟩
      intro z hz
      rcases List.mem_cons.mp ((insertLe_perm le x ys).mem_iff.mp hz) with heq | hz
      · rw [heq]; exact htotal x y (Bool.eq_false_iff.mpr h)
      · exact hy z hz

/-- Insertion sort sorts, for a total transitive le. -/
lemma sortLe_pairwise (le : CleanRow → CleanRow → Bool)
    (htotal : ∀ a b, le a b = false → le b a = true)
    (htrans : ∀ a b c, le a b = true → le b c = true → le a c = true) :
    ∀ l : List CleanRow, (sortLe le l).Pairwise (fun a b => le a b = true) := by
  intro l
  induction l with
  | nil => simp [sortLe]
  | cons x xs ih => exact insertLe_pairwise le htotal htrans x (sortLe le xs) ih

/-- A list with a member falsifying p has strictly fewer p-hits than
elements. -/
lemma countP_lt_length_of_mem {x : CleanRow} {l : List CleanRow} {p : CleanRow → Bool}
    (hx : x ∈ l) (hpx : p x = false) : l.countP p < l.length := by
  induction l with
  | nil => cases hx
  | cons a as ih =>
    rcases List.mem_cons.mp hx with rfl | hmem
    · rw [List.countP_cons, hpx]
      simp only [Bool.false_eq_true, if_false, Nat.add_zero, List.length_cons]
      exact Nat.lt_succ_of_le (List.countP_le_length p)
    · rw [List.countP_cons, List.length_cons]
      have := ih hmem
      by_cases hpa : p a = true <;> simp [hpa] <;> omega

/-- A member of the k largest rows is beaten by fewer than k rows. -/
lemma countP_gt_lt_of_mem_nlargest {k : Nat} {key : CleanRow → ℚ} {x : CleanRow}
    {l : List CleanRow} (hx : x ∈ nlargestBy k key l) :
    l.countP (fun z => decide (key x < key z)) < k := by
  set p : CleanRow → Bool := fun z => decide (key x < key z) with hp
  set D := sortLe (descBle key) l with hD
  have hperm : D.Perm l := sortLe_perm _ l
  have hsplit : D.take k ++ D.drop k = D := List.take_append_drop k D
  have hpair : D.Pairwise (fun a b => descBle key a b = true) := by
    refine sortLe_pairwise _ ?_ ?_ l
    · intro a b hab
      simp only [descBle, decide_eq_false_iff_not, not_le] at hab
      simp only [descBle, decide_eq_true_eq]
      exact le_of_lt hab
    · intro a b c hab hbc
      simp only [descBle, decide_eq_true_eq] at hab hbc ⊢
      exact le_trans hbc hab
  have hpair2 : (D.take k ++ D.drop k).Pairwise (fun a b => descBle key a b = true) := by
    rw [hsplit]; exact hpair
  rw [List.pairwise_append] at hpair2
  have hcross := hpair2.2.2
  have hcount : l.countP p = D.countP p := (hperm.countP_eq p).symm
  have hcount2 : D.countP p = (D.take k).countP p + (D.drop k).countP p := by
    conv_lhs => rw [← hsplit]
    exact List.countP_append p _ _
  have hdrop : (D.drop k).countP p = 0 := by
    rw [List.countP_eq_zero]
    intro z hz
    have hle := hcross x hx z hz
    simp only [descBle, decide_eq_true_eq] at hle
    simp only [hp, decide_eq_true_eq, not_lt]
    exact hle
  have hpx : p x = false := by
    simp only [hp, decide_eq_false_iff_not, not_lt, le_refl]
  have htake : (D.take k).countP p < (D.take k).length :=
    countP_lt_length_of_mem hx hpx
  have hlen : (D.take k).length ≤ k := List.length_take_le k D
  omega

/-- A member of the k smallest rows beats fewer than k rows. -/
lemma countP_lt_lt_of_mem_nsmallest {k : Nat} {key : CleanRow → ℚ} {x : CleanRow}
    {l : List CleanRow} (hx : x ∈ nsmallestBy k key l) :
    l.countP (fun z => decide (key z < key x)) < k := by
  set p : CleanRow → Bool := fun z => decide (key z < key x) with hp
  set D := sortLe (ascBle key) l with hD
  have hperm : D.Perm l := sortLe_perm _ l
  have hsplit : D.take k ++ D.drop k = D := List.take_append_drop k D
  have hpair : D.Pairwise (fun a b => ascBle key a b = true) := by
    refine sortLe_pairwise _ ?_ ?_ l
    · intro a b hab
      simp only [ascBle, decide_eq_false_iff_not, not_le] at hab
      simp only [ascBle, decide_eq_true_eq]
      exact le_of_lt hab
    · intro a b c hab hbc
      simp only [ascBle, decide_eq_true_eq] at hab hbc ⊢
      exact le_trans hab hbc
  have hpair2 : (D.take k ++ D.drop k).Pairwise (fun a b => ascBle key a b = true) := by
    rw [hsplit]; exact hpair
  rw [List.pairwise_append] at hpair2
  have hcross := hpair2.2.2
  have hcount : l.countP p = D.countP p := (hperm.countP_eq p).symm
  have hcount2 : D.countP p = (D.take k).countP p + (D.drop k).countP p := by
    conv_lhs => rw [← hsplit]
    exact List.countP_append p _ _
  have hdrop : (D.drop k).countP p = 0 := by
    rw [List.countP_eq_zero]
    intro z hz
    have hle := hcross x hx z hz
    simp only [ascBle, decide_eq_true_eq] at hle
    simp only [hp, decide_eq_true_eq, not_lt]
    exact hle
  have hpx : p x = false := by
    simp only [hp, decide_eq_false_iff_not, not_lt, le_refl]
  have htake : (D.take k).countP p < (D.take k).length :=
    countP_lt_length_of_mem hx hpx
  have hlen : (D.take k).length ≤ k := List.length_take_le k D
  omega

/-- Rows beating x, rows beaten by x and rows tying with x partition the
table. -/
lemma countP_key_trichotomy (key : CleanRow → ℚ) (x : CleanRow) :
    ∀ l : List CleanRow,
      l.countP (fun z => decide (key x < key z)) +
        l.countP (fun z => decide (key z < key x)) +
        l.countP (fun z => decide (key z = key x)) = l.length := by
  intro l
  induction l with
  | nil => simp
  | cons a as ih =>
    simp only [List.countP_cons, List.length_cons]
    rcases lt_trichotomy (key x) (key a) with h | h | h
    · have h1 : decide (key x < key a) = true := by simp [h]
      have h2 : decide (key a < key x) = false := by simp [le_of_lt h, not_lt.mpr]
      have h3 : decide (key a = key x) = false := by simp [ne_of_gt h]
      rw [h1, h2, h3]
      simp only [if_true, Bool.false_eq_true, if_false]
      omega
    · have h1 : decide (key x < key a) = false := by simp [h]
      have h2 : decide (key a < key x) = false := by simp [h]
      have h3 : decide (key a = key x) = true := by simp [h]
      rw [h1, h2, h3]
      simp only [if_true, Bool.false_eq_true, if_false]
      omega
    · have h1 : decide (key x < key a) = false := by simp [not_lt.mpr (le_of_lt h)]
      have h2 : decide (key a < key x) = true := by simp [h]
      have h3 : decide (key a = key x) = false := by simp [ne_of_lt h]
      rw [h1, h2, h3]
      simp only [if_true, Bool.false_eq_true, if_false]
      omega

/-- Under pairwise-distinct keys at most one row ties with x. -/
lemma countP_key_eq_le_one (key : CleanRow → ℚ) (x : CleanRow) :
    ∀ l : List CleanRow, l.Pairwise (fun a b => key a ≠ key b) →
      l.countP (fun z => decide (key z = key x)) ≤ 1 := by
  intro l
  induction l with
  | nil => simp
  | cons a as ih =>
    intro hp
    rw [List.pairwise_cons] at hp
    obtain ⟨ha, has⟩ := hp
    rw [List.countP_cons]
    by_cases h : key a = key x
    · have hzero : as.countP (fun z => decide (key z = key x)) = 0 := by
        rw [List.countP_eq_zero]
        intro z hz
        simp only [decide_eq_true_eq]
        intro hzx
        exact ha z hz (h.trans hzx.symm)
      simp [hzero, h]
    · have hd : decide (key a = key x) = false := by simp [h]
      rw [hd]
      simp only [Bool.false_eq_true, if_false, Nat.add_zero]
      exact ih has

/-- Summing a column of defined entries is an ordinary sum. -/
lemma sumOptions_map_some (f : ℚ → ℚ) :
    ∀ l : List ℚ, sumOptions (l.map (fun v => some (f v))) = some ((l.map f).sum) := by
  intro l
  induction l with
  | nil => simp [sumOptions]
  | cons v vs ih => simp [sumOptions, ih, addOption]

/-- Dividing every summand by T and scaling by 100 does the same to the
sum. -/
lemma sum_map_div_mul (T : ℚ) :
    ∀ l : List ℚ, (l.map (fun v => v / T * 100)).sum = l.sum / T * 100 := by
  intro l
  induction l with
  | nil => simp
  | cons v vs ih =>
    simp only [List.map_cons, List.sum_cons, ih]
    ring

/-- A nonempty constant list of labels has a single distinct label. -/
lemma firstUniques_const (a : String) :
    ∀ l : List String, l ≠ [] → (∀ x ∈ l, x = a) → firstUniques l = [a] := by
  intro l
  induction l with
  | nil => intro h; exact absurd rfl h
  | cons b rest ih =>
    intro _ hall
    have hb : b = a := hall b (List.mem_cons_self b rest)
    rcases rest with _ | ⟨c, cs⟩
    · simp [firstUniques, hb]
    · have hrest : firstUniques (c :: cs) = [a] := by
        refine ih (by simp) ?_
        intro x hx
        exact hall x (List.mem_cons_of_mem b hx)
      have hstep : firstUniques (b :: c :: cs) =
          b :: (firstUniques (c :: cs)).filter (fun x => !(x == b)) := rfl
      rw [hstep, hrest, hb]
      simp

/-- Successful derive output is the cleaned row list, and every required
column is present. -/
lemma process_ok_iff (t : RawTable) (et : List CleanRow) :
    process_portfolio_data t = .ok et ↔
      missingRequired t = none ∧
        et = t.rows.map (cleanRow t.hasSector t.hasMarketCap) := by
  constructor
  · intro h
    unfold process_portfolio_data at h
    cases hm : missingRequired t with
    | some c => rw [hm] at h; exact absurd h (by simp)
    | none =>
      rw [hm] at h
      simp only [Except.ok.injEq] at h
      exact ⟨rfl, h.symm⟩
  · rintro ⟨h1, h2⟩
    unfold process_portfolio_data
    rw [h1, h2]

/-! Concrete inputs used by the claim theorems and their witnesses. -/

/-- Table with one zero-investment holding: quantity 10, buy price 0,
current price 5. -/
def c1table : RawTable :=
  { hasStockName := true, hasQuantity := true, hasBuyPrice := true, hasCurrentPrice := true
    hasSector := false, hasMarketCap := false
    rows := [{ stockName := "ZeroCost", quantity := some 10, buyPrice := some 0,
               currentPrice := some 5, sector := none, marketCap := none }] }

/-- The cleaned row of c1table. -/
def c1row : CleanRow :=
  { stockName := "ZeroCost", quantity := 10, buyPrice := 0, currentPrice := 5,
    sector := "Uncategorized", marketCap := "Not Specified" }

/-- Claim C1: for every holding row, derive computes
investment = quantity * buy_price, current_value = quantity * current_price,
gain_loss = current_value - investment, and
gain_loss_pct = gain_loss / investment * 100 with divisor 1 substituted when
investment = 0; in particular a holding with quantity 10, buy price 0 and
current price 5 yields investment 0, gain_loss 50 and gain_loss_pct 5000. -/
theorem C1_derive_row_formulas :
    (∀ (t : RawTable) (et : List CleanRow), process_portfolio_data t = .ok et →
      ∀ r ∈ et,
        investment r = r.quantity * r.buyPrice ∧
        currentValue r = r.quantity * r.currentPrice ∧
        gainLoss r = currentValue r - investment r ∧
        gainLossPct r =
          gainLoss r / (if investment r = 0 then 1 else investment r) * 100) ∧
    (∀ r : CleanRow, r.quantity = 10 → r.buyPrice = 0 → r.currentPrice = 5 →
      investment r = 0 ∧ gainLoss r = 50 ∧ gainLossPct r = 5000) := by
  constructor
  · intro t et _ r _
    exact ⟨rfl, rfl, rfl, rfl⟩
  · intro r h1 h2 h3
    refine ⟨?_, ?_, ?_⟩ <;>
      norm_num [investment, gainLoss, gainLossPct, currentValue, h1, h2, h3]

/-- Witness for C1 at the concrete zero-investment table. -/
theorem C1_derive_row_formulas_witness :
    (investment c1row = c1row.quantity * c1row.buyPrice ∧
      currentValue c1row = c1row.quantity * c1row.currentPrice ∧
      gainLoss c1row = currentValue c1row - investment c1row ∧
      gainLossPct c1row =
        gainLoss c1row / (if investment c1row = 0 then 1 else investment c1row) * 100) ∧
    (investment c1row = 0 ∧ gainLoss c1row = 50 ∧ gainLossPct c1row = 5000) :=
  ⟨C1_derive_row_formulas.1 c1table [c1row] rfl c1row (by simp),
   C1_derive_row_formulas.2 c1row rfl rfl rfl⟩

/-- Claim C3: investment + gain_loss = current_value for every holding of
every enriched table produced by derive. -/
theorem C3_investment_plus_gainLoss :
    ∀ (t : RawTable) (et : List CleanRow), process_portfolio_data t = .ok et →
      ∀ r ∈ et, investment r + gainLoss r = currentValue r := by
  intro t et _ r _
  simp [gainLoss]

/-- Witness for C3 at the concrete zero-investment table. -/
theorem C3_investment_plus_gainLoss_witness :
    investment c1row + gainLoss c1row = currentValue c1row :=
  C3_investment_plus_gainLoss c1table [c1row] rfl c1row (by simp)

/-- Claim C2: whenever the total current value is strictly positive, the
Weight % values of the enriched table sum to exactly 100. -/
theorem C2_weights_sum_to_100 :
    ∀ (t : RawTable) (et : List CleanRow), process_portfolio_data t = .ok et →
      0 < totalCurrentValue et → weightSum et = some 100 := by
  intro t et _ hpos
  have hT : totalCurrentValue et ≠ 0 := ne_of_gt hpos
  have hmap : et.map (weightPct et) =
      (et.map currentValue).map (fun v => some (v / totalCurrentValue et * 100)) := by
    rw [List.map_map]
    refine List.map_congr_left ?_
    intro r _
    simp [weightPct, hT, Function.comp]
  rw [weightSum, hmap, sumOptions_map_some, sum_map_div_mul]
  rw [show ((et.map currentValue).sum = totalCurrentValue et) from rfl]
  rw [div_self hT, one_mul]

/-- Witness for C2 at the concrete zero-investment table, whose total
current value is 50. -/
theorem C2_weights_sum_to_100_witness : weightSum [c1row] = some 100 :=
  C2_weights_sum_to_100 c1table [c1row] rfl
    (by norm_num [totalCurrentValue, currentValue, c1row])

/-- Header-only raw table: every required column present, no data rows. -/
def headerOnlyTable (hs hm : Bool) : RawTable :=
  { hasStockName := true, hasQuantity := true, hasBuyPrice := true, hasCurrentPrice := true
    hasSector := hs, hasMarketCap := hm, rows := [] }

/-- Claim C10: a raw table with all required headers and zero data rows
passes validation and derives to the empty enriched table, but summarize
fails, because idxmax of the empty sector distribution does not exist. -/
theorem C10_empty_table_summarize_fails :
    ∀ (hs hm : Bool) (ti tv tg orr : ℚ),
      process_portfolio_data (headerOnlyTable hs hm) = .ok [] ∧
      prepare_pdf_data [] ti tv tg orr =
        .error "attempt to get argmax of an empty sequence" := by
  intro hs hm ti tv tg orr
  exact ⟨rfl, rfl⟩

/-- Three-holding table whose current values are 600, 300 and 100. -/
def c5table : RawTable :=
  { hasStockName := true, hasQuantity := true, hasBuyPrice := true, hasCurrentPrice := true
    hasSector := false, hasMarketCap := false
    rows := [{ stockName := "Alpha", quantity := some 1, buyPrice := some 1,
               currentPrice := some 600, sector := none, marketCap := none },
             { stockName := "Beta", quantity := some 1, buyPrice := some 1,
               currentPrice := some 300, sector := none, marketCap := none },
             { stockName := "Gamma", quantity := some 1, buyPrice := some 1,
               currentPrice := some 100, sector := none, marketCap := none }] }

/-- First cleaned row of c5table. -/
def c5rowA : CleanRow :=
  { stockName := "Alpha", quantity := 1, buyPrice := 1, currentPrice := 600,
    sector := "Uncategorized", marketCap := "Not Specified" }

/-- Second cleaned row of c5table. -/
def c5rowB : CleanRow :=
  { stockName := "Beta", quantity := 1, buyPrice := 1, currentPrice := 300,
    sector := "Uncategorized", marketCap := "Not Specified" }

/-- Third cleaned row of c5table. -/
def c5rowC : CleanRow :=
  { stockName := "Gamma", quantity := 1, buyPrice := 1, currentPrice := 100,
    sector := "Uncategorized", marketCap := "Not Specified" }

/-- Claim C5: concentration risk is the sum of Weight % over the top 5
holdings by current value, and for a 3-holding table with current values
600, 300 and 100 (total 1000) it is exactly 100. -/
theorem C5_concentration_risk :
    (∀ rows : List CleanRow,
      concentrationRisk rows =
        sumOptions ((nlargestBy 5 currentValue rows).map (weightPct rows))) ∧
    process_portfolio_data c5table = .ok [c5rowA, c5rowB, c5rowC] ∧
    [c5rowA, c5rowB, c5rowC].map currentValue = [600, 300, 100] ∧
    totalCurrentValue [c5rowA, c5rowB, c5rowC] = 1000 ∧
    concentrationRisk [c5rowA, c5rowB, c5rowC] = some 100 := by
  refine ⟨fun rows => rfl, rfl, ?_, ?_, ?_⟩
  · norm_num [currentValue, c5rowA, c5rowB, c5rowC]
  · norm_num [totalCurrentValue, currentValue, c5rowA, c5rowB, c5rowC]
  · norm_num [concentrationRisk, nlargestBy, sortLe, insertLe, descBle, weightPct,
      totalCurrentValue, currentValue, sumOptions, addOption, c5rowA, c5rowB, c5rowC]

/-- Claim C6: the document projection classifies the concentration risk
as High iff it exceeds 50 and Moderate iff it exceeds 40 (and is at most
50), else Low; the top-sector percentage as High iff it exceeds 40 and
Moderate iff it exceeds 30, else Low; both comparisons strict, so 55
maps to High, 45 to Moderate, 20 to Low, and the boundary values 50 and
40 fall into the lower class. -/
theorem C6_risk_classification :
    (∀ c : ℚ,
      (concentrationAssessment c = "High" ↔ 50 < c) ∧
      (concentrationAssessment c = "Moderate" ↔ 40 < c ∧ c ≤ 50) ∧
      (concentrationAssessment c = "Low" ↔ c ≤ 40)) ∧
    (∀ p : ℚ,
      (sectorAssessment p = "High" ↔ 40 < p) ∧
      (sectorAssessment p = "Moderate" ↔ 30 < p ∧ p ≤ 40) ∧
      (sectorAssessment p = "Low" ↔ p ≤ 30)) ∧
    concentrationAssessment 55 = "High" ∧
    concentrationAssessment 45 = "Moderate" ∧
    concentrationAssessment 20 = "Low" ∧
    concentrationAssessment 50 = "Moderate" ∧
    concentrationAssessment 40 = "Low" ∧
    sectorAssessment 40 = "Moderate" ∧
    sectorAssessment 30 = "Low" := by
  have hc : ∀ c : ℚ,
      (concentrationAssessment c = "High" ↔ 50 < c) ∧
      (concentrationAssessment c = "Moderate" ↔ 40 < c ∧ c ≤ 50) ∧
      (concentrationAssessment c = "Low" ↔ c ≤ 40) := by
    intro c
    unfold concentrationAssessment
    split_ifs with h1 h2 <;>
      refine ⟨?_, ?_, ?_⟩ <;>
      constructor <;>
      intro h <;>
      first
        | rfl
        | assumption
        | exact absurd h (by decide)
        | (exact ⟨by linarith, by linarith⟩)
        | linarith
  have hs : ∀ p : ℚ,
      (sectorAssessment p = "High" ↔ 40 < p) ∧
      (sectorAssessment p = "Moderate" ↔ 30 < p ∧ p ≤ 40) ∧
      (sectorAssessment p = "Low" ↔ p ≤ 30) := by
    intro p
    unfold sectorAssessment
    split_ifs with h1 h2 <;>
      refine ⟨?_, ?_, ?_⟩ <;>
      constructor <;>
      intro h <;>
      first
        | rfl
        | assumption
        | exact absurd h (by decide)
        | (exact ⟨by linarith, by linarith⟩)
        | linarith
  refine ⟨hc, hs, ?_, ?_, ?_, ?_, ?_, ?_, ?_⟩
  · exact (hc 55).1.mpr (by norm_num)
  · exact (hc 45).2.1.mpr (by norm_num)
  · exact (hc 20).2.2.mpr (by norm_num)
  · exact (hc 50).2.1.mpr (by norm_num)
  · exact (hc 40).2.2.mpr (by norm_num)
  · exact (hs 40).2.1.mpr (by norm_num)
  · exact (hs 30).2.2.mpr (by norm_num)

/-- Raw table missing the Quantity column. -/
def c4missing : RawTable :=
  { hasStockName := true, hasQuantity := false, hasBuyPrice := true, hasCurrentPrice := true
    hasSector := true, hasMarketCap := true
    rows := [{ stockName := "NoQty", quantity := none, buyPrice := some 2,
               currentPrice := some 3, sector := some "Tech", marketCap := some "Large" }] }

/-- Raw table with all required columns and no optional ones. -/
def c4complete : RawTable :=
  { hasStockName := true, hasQuantity := true, hasBuyPrice := true, hasCurrentPrice := true
    hasSector := false, hasMarketCap := false
    rows := [{ stockName := "Full", quantity := some 2, buyPrice := some 3,
               currentPrice := some 4, sector := none, marketCap := none }] }

/-- Claim C4: if any required column (Stock Name, Quantity, Buy Price,
Current Price) is absent, derive fails with an error naming an absent
required column and produces no output; when all four are present derive
succeeds even without Sector / Market Cap, which are synthesized with
their defaults on every row. -/
theorem C4_required_columns :
    (∀ t : RawTable,
      t.hasStockName = false ∨ t.hasQuantity = false ∨
        t.hasBuyPrice = false ∨ t.hasCurrentPrice = false →
      ∃ c, process_portfolio_data t = .error ("Missing required column: " ++ c) ∧
        ((c = "Stock Name" ∧ t.hasStockName = false) ∨
         (c = "Quantity" ∧ t.hasQuantity = false) ∨
         (c = "Buy Price" ∧ t.hasBuyPrice = false) ∨
         (c = "Current Price" ∧ t.hasCurrentPrice = false))) ∧
    (∀ t : RawTable,
      t.hasStockName = true → t.hasQuantity = true → t.hasBuyPrice = true →
        t.hasCurrentPrice = true →
      process_portfolio_data t =
        .ok (t.rows.map (cleanRow t.hasSector t.hasMarketCap)) ∧
      (t.hasSector = false →
        ∀ r ∈ t.rows.map (cleanRow t.hasSector t.hasMarketCap),
          r.sector = "Uncategorized") ∧
      (t.hasMarketCap = false →
        ∀ r ∈ t.rows.map (cleanRow t.hasSector t.hasMarketCap),
          r.marketCap = "Not Specified")) := by
  constructor
  · intro t h
    cases hsn : t.hasStockName with
    | false =>
      exact ⟨"Stock Name",
        by simp [process_portfolio_data, missingRequired, hsn],
        Or.inl ⟨rfl, rfl⟩⟩
    | true =>
      cases hq : t.hasQuantity with
      | false =>
        exact ⟨"Quantity",
          by simp [process_portfolio_data, missingRequired, hsn, hq],
          Or.inr (Or.inl ⟨rfl, rfl⟩)⟩
      | true =>
        cases hbp : t.hasBuyPrice with
        | false =>
          exact ⟨"Buy Price",
            by simp [process_portfolio_data, missingRequired, hsn, hq, hbp],
            Or.inr (Or.inr (Or.inl ⟨rfl, rfl⟩))⟩
        | true =>
          cases hcp : t.hasCurrentPrice with
          | false =>
            exact ⟨"Current Price",
              by simp [process_portfolio_data, missingRequired, hsn, hq, hbp, hcp],
              Or.inr (Or.inr (Or.inr ⟨rfl, rfl⟩))⟩
          | true =>
            rw [hsn, hq, hbp, hcp] at h
            rcases h with h | h | h | h <;> exact absurd h (by simp)
  · intro t h1 h2 h3 h4
    refine ⟨by simp [process_portfolio_data, missingRequired, h1, h2, h3, h4], ?_, ?_⟩
    · intro hsec r hr
      rcases List.mem_map.mp hr with ⟨a, _, rfl⟩
      simp [cleanRow, hsec]
    · intro hcap r hr
      rcases List.mem_map.mp hr with ⟨a, _, rfl⟩
      simp [cleanRow, hcap]

/-- Witness for C4: a table missing Quantity is rejected naming a missing
required column; a table with only the required columns is accepted with
the optional defaults filled in. -/
theorem C4_required_columns_witness :
    (∃ c, process_portfolio_data c4missing =
        .error ("Missing required column: " ++ c) ∧
      ((c = "Stock Name" ∧ c4missing.hasStockName = false) ∨
       (c = "Quantity" ∧ c4missing.hasQuantity = false) ∨
       (c = "Buy Price" ∧ c4missing.hasBuyPrice = false) ∨
       (c = "Current Price" ∧ c4missing.hasCurrentPrice = false))) ∧
    (process_portfolio_data c4complete =
        .ok (c4complete.rows.map (cleanRow c4complete.hasSector c4complete.hasMarketCap)) ∧
      (c4complete.hasSector = false →
        ∀ r ∈ c4complete.rows.map (cleanRow c4complete.hasSector c4complete.hasMarketCap),
          r.sector = "Uncategorized") ∧
      (c4complete.hasMarketCap = false →
        ∀ r ∈ c4complete.rows.map (cleanRow c4complete.hasSector c4complete.hasMarketCap),
          r.marketCap = "Not Specified")) :=
  ⟨C4_required_columns.1 c4missing (Or.inr (Or.inl rfl)),
   C4_required_columns.2 c4complete rfl rfl rfl rfl⟩

/-- Header-only raw table without Sector and Market Cap columns. -/
def c7empty : RawTable :=
  { hasStockName := true, hasQuantity := true, hasBuyPrice := true, hasCurrentPrice := true
    hasSector := false, hasMarketCap := false, rows := [] }

/-- Counterexample to claim C7 as stated: on the raw table with the
required headers, no Sector / Market Cap columns and zero rows, derive
succeeds, yet the sector distribution is empty rather than containing
exactly the key Uncategorized. -/
theorem C7_counterexample :
    c7empty.hasSector = false ∧ c7empty.hasMarketCap = false ∧
    process_portfolio_data c7empty = .ok [] ∧
    sectorDistribution [] = [] ∧
    ¬ ∃ v : ℚ, sectorDistribution [] = [("Uncategorized", v)] := by
  refine ⟨rfl, rfl, rfl, rfl, ?_⟩
  rintro ⟨v, hv⟩
  simp [sectorDistribution, groupSum, firstUniques] at hv

/-- Claim C7 (amended with nonemptiness): for a nonempty raw table
missing both the Sector and the Market Cap column, derive fills Sector
with Uncategorized and Market Cap with Not Specified on every row, and
the sector distribution has exactly one key, Uncategorized, whose value
is the total current value. -/
theorem C7_missing_sector_defaults :
    ∀ (t : RawTable) (et : List CleanRow),
      t.hasSector = false → t.hasMarketCap = false →
      process_portfolio_data t = .ok et → et ≠ [] →
      (∀ r ∈ et, r.sector = "Uncategorized" ∧ r.marketCap = "Not Specified") ∧
      sectorDistribution et = [("Uncategorized", totalCurrentValue et)] := by
  intro t et hs hm hok hne
  obtain ⟨-, het⟩ := (process_ok_iff t et).mp hok
  have hall : ∀ r ∈ et, r.sector = "Uncategorized" ∧ r.marketCap = "Not Specified" := by
    intro r hr
    rw [het] at hr
    rcases List.mem_map.mp hr with ⟨a, -, rfl⟩
    constructor
    · simp [cleanRow, hs]
    · simp [cleanRow, hm]
  refine ⟨hall, ?_⟩
  have hlabels : ∀ x ∈ et.map CleanRow.sector, x = "Uncategorized" := by
    intro x hx
    rcases List.mem_map.mp hx with ⟨r, hr, rfl⟩
    exact (hall r hr).1
  have hmapne : et.map CleanRow.sector ≠ [] := by
    intro h
    exact hne (List.map_eq_nil_iff.mp h)
  have huniq : firstUniques (et.map CleanRow.sector) = ["Uncategorized"] :=
    firstUniques_const "Uncategorized" (et.map CleanRow.sector) hmapne hlabels
  have hfilter : et.filter (fun r => r.sector == "Uncategorized") = et := by
    rw [List.filter_eq_self]
    intro r hr
    simp [(hall r hr).1]
  rw [sectorDistribution, groupSum, huniq, List.map_singleton, hfilter]
  rfl

/-- Witness for (amended) C7 at a one-row table lacking both optional
columns. -/
theorem C7_missing_sector_defaults_witness :
    (∀ r ∈ [c1row], r.sector = "Uncategorized" ∧ r.marketCap = "Not Specified") ∧
      sectorDistribution [c1row] = [("Uncategorized", totalCurrentValue [c1row])] :=
  C7_missing_sector_defaults c1table [c1row] rfl rfl rfl (by simp)

/-- One-holding raw table used against claim C8. -/
def c8one : RawTable :=
  { hasStockName := true, hasQuantity := true, hasBuyPrice := true, hasCurrentPrice := true
    hasSector := false, hasMarketCap := false
    rows := [{ stockName := "Solo", quantity := some 1, buyPrice := some 1,
               currentPrice := some 2, sector := none, marketCap := none }] }

/-- The cleaned row of c8one. -/
def c8row : CleanRow :=
  { stockName := "Solo", quantity := 1, buyPrice := 1, currentPrice := 2,
    sector := "Uncategorized", marketCap := "Not Specified" }

/-- Counterexample to claim C8 as stated: a table with a single holding
has fewer than 6 holdings with (vacuously) pairwise distinct returns, yet
that holding appears in the top-gainers list and in the top-losers list
at once. -/
theorem C8_counterexample :
    process_portfolio_data c8one = .ok [c8row] ∧
    ([c8row] : List CleanRow).length < 6 ∧
    List.Pairwise (fun a b => gainLossPct a ≠ gainLossPct b) [c8row] ∧
    c8row ∈ topGainers [c8row] ∧ c8row ∈ topLosers [c8row] := by
  refine ⟨rfl, by norm_num, by simp, ?_, ?_⟩
  · simp [topGainers, nlargestBy, sortLe, insertLe]
  · simp [topLosers, nsmallestBy, sortLe, insertLe]

/-- Claim C8 (amended: at least 6 holdings instead of fewer than 6): for
a derived table with at least 6 holdings whose Gain/Loss % values are
pairwise distinct, the 3-element top-gainers and top-losers lists share
no holding.  With fewer than 6 holdings the two lists can overlap, as
C8_counterexample shows. -/
theorem C8_gainers_losers_disjoint :
    ∀ (t : RawTable) (et : List CleanRow), process_portfolio_data t = .ok et →
      6 ≤ et.length →
      List.Pairwise (fun a b => gainLossPct a ≠ gainLossPct b) et →
      List.Disjoint (topGainers et) (topLosers et) := by
  intro t et _ hlen hdist
  intro x hg hl
  have hg2 : x ∈ nlargestBy 3 gainLossPct et := hg
  have hl2 : x ∈ nsmallestBy 3 gainLossPct et := hl
  have hGT : et.countP (fun z => decide (gainLossPct x < gainLossPct z)) < 3 :=
    countP_gt_lt_of_mem_nlargest hg2
  have hLT : et.countP (fun z => decide (gainLossPct z < gainLossPct x)) < 3 :=
    countP_lt_lt_of_mem_nsmallest hl2
  have hEQ : et.countP (fun z => decide (gainLossPct z = gainLossPct x)) ≤ 1 :=
    countP_key_eq_le_one gainLossPct x et hdist
  have htri := countP_key_trichotomy gainLossPct x et
  omega

/-- Six-holding raw table with pairwise distinct returns. -/
def c8six : RawTable :=
  { hasStockName := true, hasQuantity := true, hasBuyPrice := true, hasCurrentPrice := true
    hasSector := false, hasMarketCap := false
    rows := [{ stockName := "S1", quantity := some 1, buyPrice := some 1,
               currentPrice := some 2, sector := none, marketCap := none },
             { stockName := "S2", quantity := some 1, buyPrice := some 1,
               currentPrice := some 3, sector := none, marketCap := none },
             { stockName := "S3", quantity := some 1, buyPrice := some 1,
               currentPrice := some 4, sector := none, marketCap := none },
             { stockName := "S4", quantity := some 1, buyPrice := some 1,
               currentPrice := some 5, sector := none, marketCap := none },
             { stockName := "S5", quantity := some 1, buyPrice := some 1,
               currentPrice := some 6, sector := none, marketCap := none },
             { stockName := "S6", quantity := some 1, buyPrice := some 1,
               currentPrice := some 7, sector := none, marketCap := none }] }

/-- Cleaned rows of c8six. -/
def c8r1 : CleanRow :=
  { stockName := "S1", quantity := 1, buyPrice := 1, currentPrice := 2,
    sector := "Uncategorized", marketCap := "Not Specified" }

/-- Second cleaned row of c8six. -/
def c8r2 : CleanRow :=
  { stockName := "S2", quantity := 1, buyPrice := 1, currentPrice := 3,
    sector := "Uncategorized", marketCap := "Not Specified" }

/-- Third cleaned row of c8six. -/
def c8r3 : CleanRow :=
  { stockName := "S3", quantity := 1, buyPrice := 1, currentPrice := 4,
    sector := "Uncategorized", marketCap := "Not Specified" }

/-- Fourth cleaned row of c8six. -/
def c8r4 : CleanRow :=
  { stockName := "S4", quantity := 1, buyPrice := 1, currentPrice := 5,
    sector := "Uncategorized", marketCap := "Not Specified" }

/-- Fifth cleaned row of c8six. -/
def c8r5 : CleanRow :=
  { stockName := "S5", quantity := 1, buyPrice := 1, currentPrice := 6,
    sector := "Uncategorized", marketCap := "Not Specified" }

/-- Sixth cleaned row of c8six. -/
def c8r6 : CleanRow :=
  { stockName := "S6", quantity := 1, buyPrice := 1, currentPrice := 7,
    sector := "Uncategorized", marketCap := "Not Specified" }

/-- Witness for (amended) C8 at the six-holding table. -/
theorem C8_gainers_losers_disjoint_witness :
    6 ≤ ([c8r1, c8r2, c8r3, c8r4, c8r5, c8r6] : List CleanRow).length ∧
    List.Disjoint (topGainers [c8r1, c8r2, c8r3, c8r4, c8r5, c8r6])
      (topLosers [c8r1, c8r2, c8r3, c8r4, c8r5, c8r6]) :=
  ⟨by norm_num,
   C8_gainers_losers_disjoint c8six [c8r1, c8r2, c8r3, c8r4, c8r5, c8r6] rfl
     (by norm_num)
     (by norm_num [List.pairwise_cons, gainLossPct, gainLoss, investment, currentValue,
        c8r1, c8r2, c8r3, c8r4, c8r5, c8r6])⟩
